import Mathlib

/-!
Verification of the speech-to-sign pipeline (clean_transcript.py,
glossify_transcript.py, stream_queue_assets.py).

The pure text-processing and queue-building core of each stage is embedded
shallowly: Python strings become `List Char` (or `String` for labels and
asset references), the mutable per-stage state (dedup deques, the pending
buffer, the last-emitted-label box) is threaded explicitly, and the
fallible JSON decode of the Streamer is modelled as an `Option` of an
already-parsed record.  Numeric durations are rationals; `pyRound`
implements Python 3 `round` (round half to even).
-/

/-- Python `\s` on ASCII input: space, tab, newline, carriage return,
vertical tab, form feed. -/
def pyIsSpace (c : Char) : Bool :=
  c = ' ' || c = '\t' || c = '\n' || c = '\r' || c = '\x0b' || c = '\x0c'

/-- Python `str.strip()`: drop leading and trailing whitespace. -/
def pyStrip (s : List Char) : List Char :=
  ((s.dropWhile pyIsSpace).reverse.dropWhile pyIsSpace).reverse

/-- A string is non-blank when stripping leaves something (`if s.strip():`). -/
def nonblank (s : List Char) : Bool :=
  !(pyStrip s).isEmpty

/-- `SPACE_RE.sub(" ", s)`: replace every maximal whitespace run by one space. -/
def collapseWs : List Char → List Char
  | [] => []
  | c :: cs =>
    if pyIsSpace c then
      match cs with
      | [] => [' ']
      | c2 :: _ => if pyIsSpace c2 then collapseWs cs else ' ' :: collapseWs cs
    else c :: collapseWs cs

/-- Split a char list at the first char satisfying `p`:
returns (prefix before it, the matching char, suffix after it). -/
def splitAtPred (p : Char → Bool) : List Char → Option (List Char × Char × List Char)
  | [] => none
  | c :: cs =>
    if p c then some ([], c, cs)
    else (splitAtPred p cs).map (fun r => (c :: r.1, r.2.1, r.2.2))

/-- `PAREN_RE.sub(" ", s)` for `\([^)]*\)`: each parenthesised aside
(up to the first close paren after the open) becomes one space.
Fuelled with the input length, which bounds the iteration count. -/
def parenSubGo : Nat → List Char → List Char
  | 0, s => s
  | fuel + 1, s =>
    match s with
    | [] => []
    | c :: cs =>
      if c = '(' then
        match splitAtPred (fun x => x = ')') cs with
        | some r => ' ' :: parenSubGo fuel r.2.2
        | none => c :: parenSubGo fuel cs
      else c :: parenSubGo fuel cs

def parenSub (s : List Char) : List Char := parenSubGo s.length s

/-- `BRACKET_RE.sub(" ", s)` for `\[[^\]]*\]`. -/
def bracketSubGo : Nat → List Char → List Char
  | 0, s => s
  | fuel + 1, s =>
    match s with
    | [] => []
    | c :: cs =>
      if c = '[' then
        match splitAtPred (fun x => x = ']') cs with
        | some r => ' ' :: bracketSubGo fuel r.2.2
        | none => c :: bracketSubGo fuel cs
      else c :: bracketSubGo fuel cs

def bracketSub (s : List Char) : List Char := bracketSubGo s.length s

/-- `clean_text` of clean_transcript.py: remove parenthetical and bracketed
asides, collapse whitespace, strip. -/
def clean_text (s : List Char) : List Char :=
  pyStrip (collapseWs (bracketSub (parenSub s)))

/-- `collections.deque(maxlen=cap)` append: adding to a full deque drops the
oldest (leftmost) element. -/
def dequeAppend {α : Type} (cap : Nat) (xs : List α) (x : α) : List α :=
  let ys := xs ++ [x]
  if cap < ys.length then ys.drop (ys.length - cap) else ys

/-- Python `str.lower()` on ASCII input. -/
def pyLower (s : String) : String := String.mk (s.data.map Char.toLower)

/-- Python `str.upper()` on ASCII input. -/
def pyUpper (s : String) : String := String.mk (s.data.map Char.toUpper)

/-- Python 3 `round` to an integer: round half to even. -/
def pyRound (q : ℚ) : ℤ :=
  let f := ⌊q⌋
  let r := q - (f : ℚ)
  if r < 1 / 2 then f
  else if 1 / 2 < r then f + 1
  else if f % 2 = 0 then f else f + 1

/-! ## Glossifier (glossify_transcript.py) -/

/-- One lexicon entry: `label`, `asset` and `dur_ms` fields may each be
absent.  (A JSON entry that is the empty object is treated as absent by the
Python `or` chain; entries here always carry at least one field.) -/
structure LexEntry where
  label : Option String
  asset : Option String
  dur_ms : Option ℚ
deriving DecidableEq, Repr

/-- The lexicon mapping, as an association list keyed by gloss string. -/
def Lexicon : Type := List (String × LexEntry)

/-- `dict.get`: first binding of the key, if any. -/
def lexGet (lex : Lexicon) (k : String) : Option LexEntry :=
  (List.find? (fun p => p.1 = k) lex).map (fun p => p.2)

/-- `lex.get(g.lower()) or lex.get(g) or lex.get(g.upper())`. -/
def lexLookup (lex : Lexicon) (g : String) : Option LexEntry :=
  lexGet lex (pyLower g) <|> lexGet lex g <|> lexGet lex (pyUpper g)

/-- A sign-queue item: a playable clip, or the `_TWEEN` meta placeholder. -/
inductive QueueItem where
  | clip (label : String) (asset : Option String) (dur_ms : ℤ)
  | meta (dur_ms : ℤ)
deriving DecidableEq, Repr

def isClip : QueueItem → Bool
  | QueueItem.clip _ _ _ => true
  | QueueItem.meta _ => false

def isMeta : QueueItem → Bool
  | QueueItem.clip _ _ _ => false
  | QueueItem.meta _ => true

/-- `map_gloss_to_queue` of glossify_transcript.py.  For each gloss in
order: look it up (lowercase, then exact, then uppercase); on a hit append
a clip whose duration is the nominal duration (default 1000) divided by
`max(rate, 0.01)`, Python-rounded; then, when `tween_ms` is truthy and the
gloss is not the last of the sequence, append a tween; on a miss skip the
gloss silently. -/
def map_gloss_to_queue (lex : Lexicon) (tween_ms : ℤ) (rate : ℚ) :
    List String → List QueueItem
  | [] => []
  | g :: rest =>
    match lexLookup lex g with
    | some e =>
      let dur := pyRound ((e.dur_ms.getD 1000) / max rate (1 / 100))
      let clip := QueueItem.clip (e.label.getD g) e.asset dur
      if tween_ms ≠ 0 ∧ rest ≠ [] then
        clip :: QueueItem.meta tween_ms :: map_gloss_to_queue lex tween_ms rate rest
      else
        clip :: map_gloss_to_queue lex tween_ms rate rest
    | none => map_gloss_to_queue lex tween_ms rate rest

/-- True when the first item of the queue is a tween. -/
def headIsMeta : List QueueItem → Bool
  | QueueItem.meta _ :: _ => true
  | _ => false

/-- No two consecutive tween items anywhere in the queue. -/
def noDoubleMeta : List QueueItem → Bool
  | [] => true
  | x :: rest => (!(isMeta x && headIsMeta rest)) && noDoubleMeta rest

/-- Strict clip/tween alternation, `b` telling whether a clip is expected
at the current position. -/
def altExpect : Bool → List QueueItem → Bool
  | _, [] => true
  | b, x :: rest => (isClip x == b) && altExpect (!b) rest

/-- Per-line normalisation of the Glossifier main loop:
`SPACE_RE.sub(" ", raw).strip()`. -/
def normalize_line (raw : List Char) : List Char :=
  pyStrip (collapseWs raw)

/-- The accept/skip step of the Glossifier main loop: skip blank lines and
lines equal to the immediately preceding accepted line
(`recent_lines[-1]`); otherwise accept and append to the 8-slot deque. -/
def glossifier_accept (recent : List (List Char)) (raw : List Char) :
    Option (List Char) × List (List Char) :=
  let line := normalize_line raw
  if line = [] then (none, recent)
  else if recent ≠ [] ∧ recent.getLast? = some line then (none, recent)
  else (some line, dequeAppend 8 recent line)

/-- Run the Glossifier accept/skip step over a list of raw lines, collecting
the accepted (normalised) lines. -/
def run_glossifier (raws : List (List Char)) : List (List Char) × List (List Char) :=
  raws.foldl
    (fun acc raw =>
      let r := glossifier_accept acc.2 raw
      (match r.1 with
       | some l => acc.1 ++ [l]
       | none => acc.1, r.2))
    ([], [])

/-! ## Cleaner (clean_transcript.py) -/

/-- `emit` of process_stream: clean the raw segment; drop it when cleaning
leaves nothing or when its lowercased form is in the 64-entry dedup deque;
otherwise write it and append its key. -/
def emit (recent : List (List Char)) (raw : List Char) :
    Option (List Char) × List (List Char) :=
  let s := clean_text raw
  if s = [] then (none, recent)
  else
    let key := s.map Char.toLower
    if key ∈ recent then (none, recent)
    else (some s, dequeAppend 64 recent key)

/-- Fold `emit` over a list of raw segments, collecting the written ones. -/
def emitAll (recent : List (List Char)) (raws : List (List Char)) :
    List (List Char) × List (List Char) :=
  raws.foldl
    (fun acc raw =>
      let r := emit acc.2 raw
      (match r.1 with
       | some s => acc.1 ++ [s]
       | none => acc.1, r.2))
    ([], recent)

/-- One whole-line terminator of `END_RE = [.!?]`. -/
def isEndChar (c : Char) : Bool :=
  c = '.' || c = '!' || c = '?'

/-- `drain_newlines`, fuelled by the buffer length: repeatedly split off the
text before the first newline; a line with non-blank content is handed to
`emit` and sets the flushed flag.  Returns (flushed, emit calls, leftover
buffer). -/
def drainNewlinesGo : Nat → List Char → Bool × List (List Char) × List Char
  | 0, buf => (false, [], buf)
  | fuel + 1, buf =>
    match splitAtPred (fun c => c = '\n') buf with
    | none => (false, [], buf)
    | some s =>
      let r := drainNewlinesGo fuel s.2.2
      (nonblank s.1 || r.1,
       if nonblank s.1 then s.1 :: r.2.1 else r.2.1,
       r.2.2)

def drain_newlines (buf : List Char) : Bool × List (List Char) × List Char :=
  drainNewlinesGo buf.length buf

/-- `drain_punct`, fuelled by the buffer length: repeatedly split off the
sentence through the first `.`, `!` or `?`; every sentence is handed to
`emit`.  Returns (emit calls, leftover buffer). -/
def drainPunctGo : Nat → List Char → List (List Char) × List Char
  | 0, buf => ([], buf)
  | fuel + 1, buf =>
    match splitAtPred isEndChar buf with
    | none => ([], buf)
    | some s =>
      let r := drainPunctGo fuel s.2.2
      ((s.1 ++ [s.2.1]) :: r.1, r.2)

def drain_punct (buf : List Char) : List (List Char) × List Char :=
  drainPunctGo buf.length buf

/-- The overflow safety valve of process_stream:
`if len(buf) > 16384: buf = buf[-8192:]`. -/
def capBuf (b : List Char) : List Char :=
  if 16384 < b.length then b.drop (b.length - 8192) else b

/-- One Cleaner cycle of process_stream as a pure function of
(buffer, idle-elapsed ms, configured idle window ms): newline drain;
punctuation drain only if the newline drain flushed nothing; idle flush of
the stripped leftover when the idle window has elapsed and the leftover is
non-blank; then the overflow cap.  Returns (segments handed to `emit`, new
buffer). -/
def process_cycle (buf : List Char) (idleElapsedMs idleMs : ℤ) :
    List (List Char) × List Char :=
  let d := drain_newlines buf
  let pq := if d.1 then (([] : List (List Char)), d.2.2) else drain_punct d.2.2
  let doFlush : Bool := decide (idleMs ≤ idleElapsedMs) && nonblank pq.2
  let segs3 := if doFlush then [pyStrip pq.2] else []
  let b3 := if doFlush then ([] : List Char) else pq.2
  (d.2.1 ++ pq.1 ++ segs3, capBuf b3)

/-- Structural one-pass splitter used to state what the drains compute:
cut the buffer at every char satisfying `p`; each segment keeps the cutting
char when `keep` is set; the trailing remainder holds no such char. -/
def splitSegs (p : Char → Bool) (keep : Bool) : List Char → List (List Char) × List Char
  | [] => ([], [])
  | c :: cs =>
    if p c then
      let r := splitSegs p keep cs
      ((if keep then [c] else []) :: r.1, r.2)
    else
      match splitSegs p keep cs with
      | (l :: ls, r) => ((c :: l) :: ls, r)
      | ([], r) => ([], c :: r)

/-- Modelled from the spec's segmentation-priority sentence, as the claim
reads it: newline drain; punctuation drain only if the newline drain
produced nothing; idle flush only if neither drain produced output and the
idle window elapsed.  Differs from `process_cycle` in gating the idle flush
on the drains. -/
def spec_cycle_gated (buf : List Char) (idleElapsedMs idleMs : ℤ) :
    List (List Char) × List Char :=
  let lines := ((splitSegs (fun c => c = '\n') false buf).1).filter nonblank
  let b1 := (splitSegs (fun c => c = '\n') false buf).2
  let sents := if lines.isEmpty then (splitSegs isEndChar true b1).1 else []
  let b2 := if lines.isEmpty then (splitSegs isEndChar true b1).2 else b1
  let doFlush : Bool :=
    lines.isEmpty && sents.isEmpty && decide (idleMs ≤ idleElapsedMs) && nonblank b2
  (lines ++ sents ++ if doFlush then [pyStrip b2] else [],
   capBuf (if doFlush then ([] : List Char) else b2))

/-- The Cleaner cycle as the code actually behaves, written with the
structural splitter: punctuation drain only if the newline drain flushed
nothing, but the idle flush is NOT gated on the drains. -/
def spec_cycle (buf : List Char) (idleElapsedMs idleMs : ℤ) :
    List (List Char) × List Char :=
  let lines := ((splitSegs (fun c => c = '\n') false buf).1).filter nonblank
  let b1 := (splitSegs (fun c => c = '\n') false buf).2
  let sents := if lines.isEmpty then (splitSegs isEndChar true b1).1 else []
  let b2 := if lines.isEmpty then (splitSegs isEndChar true b1).2 else b1
  let doFlush : Bool := decide (idleMs ≤ idleElapsedMs) && nonblank b2
  (lines ++ sents ++ if doFlush then [pyStrip b2] else [],
   capBuf (if doFlush then ([] : List Char) else b2))

/-! ## Streamer (stream_queue_assets.py) -/

/-- A queue item as decoded from a structured-record line: each of
`item.get("type")`, `item.get("label")`, `item.get("asset")` may be absent
or null (`none`) or any string, including the empty string. -/
structure SQItem where
  type : Option String
  label : Option String
  asset : Option String
deriving DecidableEq, Repr

/-- A decoded structured record; `obj.get("queue", [])` defaults to the
empty queue. -/
structure SRecord where
  queue : List SQItem
deriving DecidableEq, Repr

/-- Python string truthiness for an optional field: absent/null and the
empty string are falsy. -/
def pyTruthy : Option String → Bool
  | none => false
  | some s => decide (s ≠ "")

/-- One iteration of the item loop of `process_line`: skip non-clip items,
skip clips with a falsy asset, skip clips whose truthy label equals the
last emitted label; otherwise emit the asset and update the last label. -/
def process_item (last : Option String) (it : SQItem) :
    List String × Option String :=
  if it.type ≠ some "clip" then ([], last)
  else if pyTruthy it.asset = false then ([], last)
  else if pyTruthy it.label = true ∧ it.label = last then ([], last)
  else ([it.asset.getD ""], it.label)

/-- `process_line` of stream_queue_assets.py on one incoming line.  A blank
or undecodable line (the `json.JSONDecodeError` branch) is `none` and
yields no assets; a decoded record folds `process_item` over its queue. -/
def process_line (obj : Option SRecord) (last : Option String) :
    List String × Option String :=
  match obj with
  | none => ([], last)
  | some r =>
    r.queue.foldl
      (fun acc it =>
        let s := process_item acc.2 it
        (acc.1 ++ s.1, s.2))
      ([], last)

/-- Fold `process_line` over a stream of lines, threading the
last-emitted-label box from the given initial value. -/
def run_streamer_from (lines : List (Option SRecord)) (last : Option String) :
    List String × Option String :=
  lines.foldl
    (fun acc ln =>
      let s := process_line ln acc.2
      (acc.1 ++ s.1, s.2))
    ([], last)

/-- A whole Streamer run starts with `last_label_box = [None]`. -/
def run_streamer (lines : List (Option SRecord)) : List String × Option String :=
  run_streamer_from lines none

/-! ### The raw decode result of the Streamer

`process_line` above starts from an already-parsed record and therefore
only covers the caught `json.JSONDecodeError` branch.  The defs below
model the raw result of `json.loads` so that lines which decode to
something other than a record can be followed through the Python
attribute accesses: only `json.JSONDecodeError` is caught, so a decoded
non-dict (`None`, a number, a string, a list) raises an uncaught
`AttributeError` at `obj.get`, and a dict with a non-iterable queue an
uncaught `TypeError` at the loop header. -/

/-- A decoded Python/JSON value: None, bool, number, string, list, dict
(fields in insertion order). -/
inductive JVal where
  | jnull
  | jbool (b : Bool)
  | jnum (q : ℚ)
  | jstr (s : String)
  | jarr (xs : List JVal)
  | jobj (fields : List (String × JVal))

/-- Python truthiness of a decoded value. -/
def jTruthy : JVal → Bool
  | JVal.jnull => false
  | JVal.jbool b => b
  | JVal.jnum q => decide (q ≠ 0)
  | JVal.jstr s => decide (s ≠ "")
  | JVal.jarr xs => !xs.isEmpty
  | JVal.jobj fs => !fs.isEmpty

mutual
/-- Python `==` on decoded values: numbers and bools compare numerically,
lists elementwise, dicts by keys regardless of insertion order. -/
def jEq : JVal → JVal → Bool
  | JVal.jnull, JVal.jnull => true
  | JVal.jbool x, JVal.jbool y => x == y
  | JVal.jbool x, JVal.jnum q => (if x then (1 : ℚ) else 0) == q
  | JVal.jnum q, JVal.jbool y => q == (if y then (1 : ℚ) else 0)
  | JVal.jnum x, JVal.jnum y => x == y
  | JVal.jstr x, JVal.jstr y => x == y
  | JVal.jarr xs, JVal.jarr ys => jEqL xs ys
  | JVal.jobj xs, JVal.jobj ys => xs.length == ys.length && jEqF xs ys
  | _, _ => false

def jEqL : List JVal → List JVal → Bool
  | [], [] => true
  | x :: xs, y :: ys => jEq x y && jEqL xs ys
  | _, _ => false

def jEqF : List (String × JVal) → List (String × JVal) → Bool
  | [], _ => true
  | p :: ps, ys =>
    (match ys.find? (fun q => q.1 == p.1) with
     | some q => jEq p.2 q.2
     | none => false) && jEqF ps ys
end

/-- `v.get(k, dflt)`: dict lookup with a default (an explicit null value
is returned, not the default); any non-dict raises `AttributeError`. -/
def jGet (v : JVal) (k : String) (dflt : JVal) : Except String JVal :=
  match v with
  | JVal.jobj fields =>
    Except.ok (((fields.find? (fun p => p.1 == k)).map (fun p => p.2)).getD dflt)
  | _ => Except.error "AttributeError"

/-- `for item in v`: lists iterate their elements, strings their one-char
substrings, dicts their keys; anything else raises `TypeError`. -/
def jIter : JVal → Except String (List JVal)
  | JVal.jarr xs => Except.ok xs
  | JVal.jstr s => Except.ok (s.data.map (fun c => JVal.jstr (String.mk [c])))
  | JVal.jobj fields => Except.ok (fields.map (fun p => JVal.jstr p.1))
  | _ => Except.error "TypeError"

/-- The clip loop of `process_line` over raw decoded items, threading the
last-emitted label (a raw value, initially None) and aborting at the
first uncaught exception. -/
def clipLoop : List JVal → JVal → Except String (List JVal × JVal)
  | [], last => Except.ok ([], last)
  | item :: rest, last =>
    match jGet item "type" JVal.jnull with
    | Except.error e => Except.error e
    | Except.ok ty =>
      if !jEq ty (JVal.jstr "clip") then clipLoop rest last
      else
        match jGet item "label" JVal.jnull with
        | Except.error e => Except.error e
        | Except.ok label =>
          match jGet item "asset" JVal.jnull with
          | Except.error e => Except.error e
          | Except.ok asset =>
            if !jTruthy asset then clipLoop rest last
            else if jTruthy label && jEq label last then clipLoop rest last
            else
              match clipLoop rest label with
              | Except.error e => Except.error e
              | Except.ok r => Except.ok (asset :: r.1, r.2)

/-- `process_line` on the raw decode result: `none` stands for a blank
line or one on which `json.loads` raised the caught `JSONDecodeError`;
`some v` is any successfully decoded JSON value.  Only a dict survives
`obj.get("queue", [])` and only an iterable queue survives the loop
header — anything else escapes as an uncaught exception. -/
def process_line_json (line : Option JVal) (last : JVal) :
    Except String (List JVal × JVal) :=
  match line with
  | none => Except.ok ([], last)
  | some obj =>
    match jGet obj "queue" (JVal.jarr []) with
    | Except.error e => Except.error e
    | Except.ok queue =>
      match jIter queue with
      | Except.error e => Except.error e
      | Except.ok items => clipLoop items last

/-- A Streamer run over raw decoded lines, starting from a None label;
the first uncaught exception aborts the whole run. -/
def run_streamer_json : List (Option JVal) → JVal → Except String (List JVal × JVal)
  | [], last => Except.ok ([], last)
  | ln :: rest, last =>
    match process_line_json ln last with
    | Except.error e => Except.error e
    | Except.ok r =>
      match run_streamer_json rest r.2 with
      | Except.error e => Except.error e
      | Except.ok r2 => Except.ok (r.1 ++ r2.1, r2.2)

/-! ## Concrete fixtures used by witnesses and counterexamples -/

/-- A well-formed one-clip structured record, as a raw decoded value. -/
def streamRecA : JVal :=
  JVal.jobj
    [("input", JVal.jstr "a"), ("gloss", JVal.jarr [JVal.jstr "A"]),
     ("queue", JVal.jarr [JVal.jobj
       [("label", JVal.jstr "A"), ("type", JVal.jstr "clip"),
        ("asset", JVal.jstr "a.webm"), ("dur_ms", JVal.jnum 1000)]]),
     ("sentence_pause_ms", JVal.jnum 250)]

/-- A second well-formed one-clip record with a different label. -/
def streamRecB : JVal :=
  JVal.jobj
    [("input", JVal.jstr "b"), ("gloss", JVal.jarr [JVal.jstr "B"]),
     ("queue", JVal.jarr [JVal.jobj
       [("label", JVal.jstr "B"), ("type", JVal.jstr "clip"),
        ("asset", JVal.jstr "b.webm"), ("dur_ms", JVal.jnum 1000)]]),
     ("sentence_pause_ms", JVal.jnum 250)]

/-- A lexicon with an entry for gloss "a" only. -/
def lexC1 : Lexicon := [("a", ⟨some "A-sign", some "a.webm", some 1000⟩)]

/-- A lexicon with one entry of nominal duration 1000 ms. -/
def lexC6 : Lexicon := [("hello", ⟨some "HELLO", some "h.webm", some 1000⟩)]

/-- A lexicon covering the two glosses of the alternation witness. -/
def lexC7 : Lexicon :=
  [("hi", ⟨some "HI", some "hi.webm", some 800⟩),
   ("you", ⟨some "YOU", some "you.webm", some 1200⟩)]

/-- 65 pairwise-distinct already-clean segments (runs of x of length 1..65). -/
def segs65 : List (List Char) := (List.range 65).map (fun i => List.replicate (i + 1) 'x')

/-! ## Helper lemmas -/

theorem pyRound_intCast (n : ℤ) : pyRound (n : ℚ) = n := by
  unfold pyRound
  simp

theorem pyRound_rate2 : pyRound ((1000 : ℚ) / max 2 (1 / 100)) = 500 := by
  have hm : max (2 : ℚ) (1 / 100) = 2 := max_eq_left (by norm_num)
  have hq : (1000 : ℚ) / 2 = ((500 : ℤ) : ℚ) := by norm_num
  rw [hm, hq, pyRound_intCast]

theorem pyRound_rateHalf : pyRound ((1000 : ℚ) / max (1 / 2) (1 / 100)) = 2000 := by
  have hm : max ((1 : ℚ) / 2) (1 / 100) = 1 / 2 := max_eq_left (by norm_num)
  have hq : (1000 : ℚ) / (1 / 2) = ((2000 : ℤ) : ℚ) := by norm_num
  rw [hm, hq, pyRound_intCast]

theorem headIsMeta_mgq (lex : Lexicon) (tween_ms : ℤ) (rate : ℚ) :
    ∀ gloss : List String, headIsMeta (map_gloss_to_queue lex tween_ms rate gloss) = false := by
  intro gloss
  induction gloss with
  | nil => rfl
  | cons g rest ih =>
    cases h : lexLookup lex g with
    | none => simp [map_gloss_to_queue, h, ih]
    | some e =>
      simp only [map_gloss_to_queue, h]
      split <;> rfl


theorem mgq_cons_some {lex : Lexicon} {tween_ms : ℤ} {rate : ℚ} {g : String}
    {rest : List String} {e : LexEntry} (h : lexLookup lex g = some e) :
    map_gloss_to_queue lex tween_ms rate (g :: rest) =
      if tween_ms ≠ 0 ∧ rest ≠ [] then
        QueueItem.clip (e.label.getD g) e.asset
            (pyRound ((e.dur_ms.getD 1000) / max rate (1 / 100))) ::
          QueueItem.meta tween_ms :: map_gloss_to_queue lex tween_ms rate rest
      else
        QueueItem.clip (e.label.getD g) e.asset
            (pyRound ((e.dur_ms.getD 1000) / max rate (1 / 100))) ::
          map_gloss_to_queue lex tween_ms rate rest := by
  simp only [map_gloss_to_queue, h]

theorem mgq_cons_none {lex : Lexicon} {tween_ms : ℤ} {rate : ℚ} {g : String}
    {rest : List String} (h : lexLookup lex g = none) :
    map_gloss_to_queue lex tween_ms rate (g :: rest) =
      map_gloss_to_queue lex tween_ms rate rest := by
  simp only [map_gloss_to_queue, h]

theorem noDoubleMeta_mgq (lex : Lexicon) (tween_ms : ℤ) (rate : ℚ) :
    ∀ gloss : List String, noDoubleMeta (map_gloss_to_queue lex tween_ms rate gloss) = true := by
  intro gloss
  induction gloss with
  | nil => rfl
  | cons g rest ih =>
    cases h : lexLookup lex g with
    | none => rw [mgq_cons_none h]; exact ih
    | some e =>
      rw [mgq_cons_some h]
      split
      · simp [noDoubleMeta, isMeta, headIsMeta_mgq, ih]
      · simp [noDoubleMeta, isMeta, ih]

theorem getLast?_cons_ne {α : Type} (x : α) {l : List α} (h : l ≠ []) :
    (x :: l).getLast? = l.getLast? := by
  obtain ⟨y, t, rfl⟩ := List.exists_cons_of_ne_nil h
  exact List.getLast?_cons_cons

theorem mgq_getLast_clip (lex : Lexicon) (tween_ms : ℤ) (rate : ℚ)
    {gloss : List String} {g : String} (hg : gloss.getLast? = some g)
    (hs : (lexLookup lex g).isSome = true) :
    ∃ l a d, (map_gloss_to_queue lex tween_ms rate gloss).getLast? =
      some (QueueItem.clip l a d) := by
  induction gloss with
  | nil => simp at hg
  | cons g0 rest ih =>
    cases hr : rest with
    | nil =>
      subst hr
      simp only [List.getLast?_singleton, Option.some.injEq] at hg
      subst hg
      obtain ⟨e, he⟩ := Option.isSome_iff_exists.mp hs
      refine ⟨e.label.getD g0, e.asset,
        pyRound ((e.dur_ms.getD 1000) / max rate (1 / 100)), ?_⟩
      rw [mgq_cons_some he]
      simp [map_gloss_to_queue]
    | cons r1 rs =>
      subst hr
      rw [List.getLast?_cons_cons] at hg
      obtain ⟨l, a, d, hq⟩ := ih hg
      have hne : map_gloss_to_queue lex tween_ms rate (r1 :: rs) ≠ [] := by
        intro hnil
        rw [hnil] at hq
        simp at hq
      refine ⟨l, a, d, ?_⟩
      cases h0 : lexLookup lex g0 with
      | none => rw [mgq_cons_none h0]; exact hq
      | some e =>
        rw [mgq_cons_some h0]
        split
        · rw [getLast?_cons_ne _ (by simp), getLast?_cons_ne _ hne]
          exact hq
        · rw [getLast?_cons_ne _ hne]
          exact hq

/-! ## Claim theorems -/

/-- C1 (amended): for every gloss list, lexicon and positive tween duration,
the queue built by `map_gloss_to_queue` never begins with a tween and never
contains two consecutive tweens; and whenever the *last* gloss has a
lexicon entry the queue also does not end with a tween.  (As stated the
claim is false: when the last gloss has no entry the queue can end with a
tween — see the counterexample.) -/
theorem tween_position_invariant (gloss : List String) (lex : Lexicon)
    (tween_ms : ℤ) (rate : ℚ) (ht : 0 < tween_ms) :
    headIsMeta (map_gloss_to_queue lex tween_ms rate gloss) = false ∧
    noDoubleMeta (map_gloss_to_queue lex tween_ms rate gloss) = true ∧
    ∀ g, gloss.getLast? = some g → (lexLookup lex g).isSome = true →
      ∃ l a d, (map_gloss_to_queue lex tween_ms rate gloss).getLast? =
        some (QueueItem.clip l a d) :=
  ⟨headIsMeta_mgq lex tween_ms rate gloss,
   noDoubleMeta_mgq lex tween_ms rate gloss,
   fun _ hg hs => mgq_getLast_clip lex tween_ms rate hg hs⟩

/-- C1 counterexample: with tween duration 100 > 0 and the gloss sequence
["A", "B"] where only "A" is in the lexicon, the queue *ends* with a tween
item, contradicting "the queue never ends with a tween item ... including
when some glosses have no lexicon entry". -/
theorem tween_trailing_cex :
    (0 : ℤ) < 100 ∧
    (map_gloss_to_queue lexC1 100 1 ["A", "B"]).getLast? =
      some (QueueItem.meta 100) := by
  decide

/-- Witness for `tween_position_invariant` at a concrete input. -/
theorem tween_position_invariant_w :
    (0 : ℤ) < 100 ∧
    (headIsMeta (map_gloss_to_queue lexC1 100 1 ["A"]) = false ∧
     noDoubleMeta (map_gloss_to_queue lexC1 100 1 ["A"]) = true ∧
     ∀ g, (["A"] : List String).getLast? = some g →
       (lexLookup lexC1 g).isSome = true →
       ∃ l a d, (map_gloss_to_queue lexC1 100 1 ["A"]).getLast? =
         some (QueueItem.clip l a d)) :=
  ⟨by decide, tween_position_invariant ["A"] lexC1 100 1 (by decide)⟩

/-- C6: for a gloss found in the lexicon, the clip built for it carries
duration `round(nominal / max(rate, 0.01))` with nominal defaulting to
1000 ms; concretely, nominal 1000 ms at rate 2.0 gives exactly 500 ms and
at rate 0.5 gives exactly 2000 ms. -/
theorem clip_duration_rate (g : String) (gs : List String) (lex : Lexicon)
    (tween_ms : ℤ) (rate : ℚ) (e : LexEntry) (he : lexLookup lex g = some e) :
    (map_gloss_to_queue lex tween_ms rate (g :: gs)).head? =
      some (QueueItem.clip (e.label.getD g) e.asset
        (pyRound ((e.dur_ms.getD 1000) / max rate (1 / 100)))) ∧
    map_gloss_to_queue lexC6 0 2 ["hello"] =
      [QueueItem.clip "HELLO" (some "h.webm") 500] ∧
    map_gloss_to_queue lexC6 0 (1 / 2) ["hello"] =
      [QueueItem.clip "HELLO" (some "h.webm") 2000] := by
  refine ⟨?_, ?_, ?_⟩
  · rw [mgq_cons_some he]
    split <;> rfl
  · have hl : lexLookup lexC6 "hello" =
        some ⟨some "HELLO", some "h.webm", some 1000⟩ := rfl
    rw [mgq_cons_some hl]
    rw [if_neg (by simp)]
    simp only [map_gloss_to_queue, Option.getD_some]
    rw [pyRound_rate2]
  · have hl : lexLookup lexC6 "hello" =
        some ⟨some "HELLO", some "h.webm", some 1000⟩ := rfl
    rw [mgq_cons_some hl]
    rw [if_neg (by simp)]
    simp only [map_gloss_to_queue, Option.getD_some]
    rw [pyRound_rateHalf]

/-- Witness for `clip_duration_rate` at a concrete input. -/
theorem clip_duration_rate_w :
    lexLookup lexC6 "hello" = some ⟨some "HELLO", some "h.webm", some 1000⟩ ∧
    ((map_gloss_to_queue lexC6 0 2 ["hello"]).head? =
      some (QueueItem.clip ((some "HELLO").getD "hello") (some "h.webm")
        (pyRound (((some (1000 : ℚ)).getD 1000) / max 2 (1 / 100)))) ∧
     map_gloss_to_queue lexC6 0 2 ["hello"] =
       [QueueItem.clip "HELLO" (some "h.webm") 500] ∧
     map_gloss_to_queue lexC6 0 (1 / 2) ["hello"] =
       [QueueItem.clip "HELLO" (some "h.webm") 2000]) :=
  ⟨rfl, clip_duration_rate "hello" [] lexC6 0 2
    ⟨some "HELLO", some "h.webm", some 1000⟩ rfl⟩

/-- C7: when every gloss of a non-empty sequence has a lexicon entry and
the tween duration is positive, the queue has exactly N clips and N−1
tweens, strictly alternating starting (and, by the odd length, ending)
with a clip. -/
theorem queue_alternation (gloss : List String) (lex : Lexicon)
    (tween_ms : ℤ) (rate : ℚ) (hne : gloss ≠ [])
    (hall : ∀ g ∈ gloss, (lexLookup lex g).isSome = true)
    (ht : 0 < tween_ms) :
    (map_gloss_to_queue lex tween_ms rate gloss).countP isClip = gloss.length ∧
    (map_gloss_to_queue lex tween_ms rate gloss).countP isMeta = gloss.length - 1 ∧
    altExpect true (map_gloss_to_queue lex tween_ms rate gloss) = true := by
  induction gloss with
  | nil => exact absurd rfl hne
  | cons g rest ih =>
    obtain ⟨e, he⟩ := Option.isSome_iff_exists.mp (hall g (List.mem_cons_self g rest))
    cases hr : rest with
    | nil =>
      subst hr
      rw [mgq_cons_some he, if_neg (by simp)]
      simp [map_gloss_to_queue, List.countP_cons, isClip, isMeta, altExpect]
    | cons r1 rs =>
      subst hr
      have ih' := ih (by simp) (fun g' hg' => hall g' (List.mem_cons_of_mem g hg'))
      rw [mgq_cons_some he, if_pos ⟨ht.ne', by simp⟩]
      obtain ⟨hc, hm, ha⟩ := ih'
      have hlen : 0 < (r1 :: rs).length := by simp
      refine ⟨?_, ?_, ?_⟩
      · simp [List.countP_cons, isClip, hc]
      · simp [List.countP_cons, isClip, isMeta, hm]
      · simp [altExpect, isClip, ha]

/-- Witness for `queue_alternation` at a concrete input. -/
theorem queue_alternation_w :
    ((["HI", "YOU"] : List String) ≠ [] ∧
     (∀ g ∈ (["HI", "YOU"] : List String), (lexLookup lexC7 g).isSome = true) ∧
     (0 : ℤ) < 100) ∧
    ((map_gloss_to_queue lexC7 100 1 ["HI", "YOU"]).countP isClip =
        (["HI", "YOU"] : List String).length ∧
     (map_gloss_to_queue lexC7 100 1 ["HI", "YOU"]).countP isMeta =
        (["HI", "YOU"] : List String).length - 1 ∧
     altExpect true (map_gloss_to_queue lexC7 100 1 ["HI", "YOU"]) = true) :=
  ⟨⟨by decide, by decide, by decide⟩,
   queue_alternation ["HI", "YOU"] lexC7 100 1 (by decide) (by decide) (by decide)⟩

theorem process_item_no_asset {last : Option String} {it : SQItem}
    (hc : it.type = some "clip") (ha : pyTruthy it.asset = false) :
    process_item last it = ([], last) := by
  unfold process_item
  rw [if_neg (by simp [hc]), if_pos ha]

theorem process_item_dup {last : Option String} {it : SQItem}
    (hc : it.type = some "clip") (ha : pyTruthy it.asset = true)
    (hl : pyTruthy it.label = true ∧ it.label = last) :
    process_item last it = ([], last) := by
  unfold process_item
  rw [if_neg (by simp [hc]), if_neg (by simp [ha]), if_pos hl]

theorem process_item_emit {last : Option String} {it : SQItem}
    (hc : it.type = some "clip") (ha : pyTruthy it.asset = true)
    (hl : ¬(pyTruthy it.label = true ∧ it.label = last)) :
    process_item last it = ([it.asset.getD ""], it.label) := by
  unfold process_item
  rw [if_neg (by simp [hc]), if_neg (by simp [ha]), if_neg hl]

/-- C10: in `process_line`, a clip item whose asset is absent or empty is
skipped without touching the last-emitted label, while a clip with a
non-empty asset and an absent/null/empty label is always emitted —
whatever the last label was, including the same empty label. -/
theorem clip_empty_label_emission (last : Option String) (it : SQItem)
    (hc : it.type = some "clip") :
    (pyTruthy it.asset = false → process_item last it = ([], last)) ∧
    (pyTruthy it.asset = true → pyTruthy it.label = false →
      process_item last it = ([it.asset.getD ""], it.label)) := by
  constructor
  · intro ha
    exact process_item_no_asset hc ha
  · intro ha hl
    apply process_item_emit hc ha
    intro hcon
    rw [hl] at hcon
    exact absurd hcon.1 (by simp)

/-- Witness for `clip_empty_label_emission`: previous emitted label and
current label are both the empty string, the asset non-empty. -/
theorem clip_empty_label_emission_w :
    (⟨some "clip", some "", some "a.webm"⟩ : SQItem).type = some "clip" ∧
    ((pyTruthy (⟨some "clip", some "", some "a.webm"⟩ : SQItem).asset = false →
       process_item (some "") ⟨some "clip", some "", some "a.webm"⟩ = ([], some "")) ∧
     (pyTruthy (⟨some "clip", some "", some "a.webm"⟩ : SQItem).asset = true →
       pyTruthy (⟨some "clip", some "", some "a.webm"⟩ : SQItem).label = false →
       process_item (some "") ⟨some "clip", some "", some "a.webm"⟩ =
         ([(⟨some "clip", some "", some "a.webm"⟩ : SQItem).asset.getD ""],
          (⟨some "clip", some "", some "a.webm"⟩ : SQItem).label))) :=
  ⟨rfl, clip_empty_label_emission (some "") ⟨some "clip", some "", some "a.webm"⟩ rfl⟩

/-- C5 (amended): a clip with a non-empty asset is emitted iff its label is
absent/empty or differs from the last emitted label, and emission updates
the last emitted label to the clip's label; consequently two one-clip
records with the same non-empty label yield one emission, and with
different non-empty labels yield both.  (As stated the claim is false for
empty labels — see the counterexample.) -/
theorem asset_collapse (last : Option String) (it : SQItem)
    (hc : it.type = some "clip") (ha : pyTruthy it.asset = true) :
    (pyTruthy it.label = true ∧ it.label = last →
      process_item last it = ([], last)) ∧
    (¬(pyTruthy it.label = true ∧ it.label = last) →
      process_item last it = ([it.asset.getD ""], it.label)) ∧
    (∀ lab a1 a2 : String, lab ≠ "" → a1 ≠ "" → a2 ≠ "" →
      (run_streamer [some ⟨[⟨some "clip", some lab, some a1⟩]⟩,
                     some ⟨[⟨some "clip", some lab, some a2⟩]⟩]).1 = [a1]) ∧
    (∀ lA lB a1 a2 : String, lA ≠ "" → lB ≠ "" → lA ≠ lB →
      a1 ≠ "" → a2 ≠ "" →
      (run_streamer [some ⟨[⟨some "clip", some lA, some a1⟩]⟩,
                     some ⟨[⟨some "clip", some lB, some a2⟩]⟩]).1 = [a1, a2]) := by
  refine ⟨fun hl => process_item_dup hc ha hl,
          fun hl => process_item_emit hc ha hl, ?_, ?_⟩
  · intro lab a1 a2 hlab ha1 ha2
    have e1 : process_item none ⟨some "clip", some lab, some a1⟩ =
        ([a1], some lab) := by
      apply process_item_emit rfl (by simp [pyTruthy, ha1])
      simp
    have e2 : process_item (some lab) ⟨some "clip", some lab, some a2⟩ =
        ([], some lab) :=
      process_item_dup rfl (by simp [pyTruthy, ha2])
        ⟨by simp [pyTruthy, hlab], rfl⟩
    simp [run_streamer, run_streamer_from, process_line, e1, e2]
  · intro lA lB a1 a2 hlA hlB hne ha1 ha2
    have e1 : process_item none ⟨some "clip", some lA, some a1⟩ =
        ([a1], some lA) := by
      apply process_item_emit rfl (by simp [pyTruthy, ha1])
      simp
    have e2 : process_item (some lA) ⟨some "clip", some lB, some a2⟩ =
        ([a2], some lB) := by
      apply process_item_emit rfl (by simp [pyTruthy, ha2])
      intro hcon
      exact hne (Option.some_inj.mp hcon.2).symm
    simp [run_streamer, run_streamer_from, process_line, e1, e2]

/-- C5 counterexample: two consecutive records whose final and initial clip
labels are equal (both the empty string) with non-empty assets yield BOTH
emissions, not one: the empty label is never collapsed, contradicting
"emitted if and only if its label differs from the last emitted label". -/
theorem asset_collapse_cex :
    run_streamer [some ⟨[⟨some "clip", some "", some "a1"⟩]⟩,
                  some ⟨[⟨some "clip", some "", some "a2"⟩]⟩] =
      (["a1", "a2"], some "") := by
  decide

/-- Witness for `asset_collapse` at a concrete input. -/
theorem asset_collapse_w :
    ((⟨some "clip", some "L", some "a.webm"⟩ : SQItem).type = some "clip" ∧
     pyTruthy (⟨some "clip", some "L", some "a.webm"⟩ : SQItem).asset = true) ∧
    ((pyTruthy (⟨some "clip", some "L", some "a.webm"⟩ : SQItem).label = true ∧
        (⟨some "clip", some "L", some "a.webm"⟩ : SQItem).label = some "L" →
      process_item (some "L") ⟨some "clip", some "L", some "a.webm"⟩ =
        ([], some "L")) ∧
     (¬(pyTruthy (⟨some "clip", some "L", some "a.webm"⟩ : SQItem).label = true ∧
        (⟨some "clip", some "L", some "a.webm"⟩ : SQItem).label = some "L") →
      process_item (some "L") ⟨some "clip", some "L", some "a.webm"⟩ =
        ([(⟨some "clip", some "L", some "a.webm"⟩ : SQItem).asset.getD ""],
         (⟨some "clip", some "L", some "a.webm"⟩ : SQItem).label)) ∧
     (∀ lab a1 a2 : String, lab ≠ "" → a1 ≠ "" → a2 ≠ "" →
       (run_streamer [some ⟨[⟨some "clip", some lab, some a1⟩]⟩,
                      some ⟨[⟨some "clip", some lab, some a2⟩]⟩]).1 = [a1]) ∧
     (∀ lA lB a1 a2 : String, lA ≠ "" → lB ≠ "" → lA ≠ lB →
       a1 ≠ "" → a2 ≠ "" →
       (run_streamer [some ⟨[⟨some "clip", some lA, some a1⟩]⟩,
                      some ⟨[⟨some "clip", some lB, some a2⟩]⟩]).1 = [a1, a2])) :=
  ⟨⟨rfl, by decide⟩,
   asset_collapse (some "L") ⟨some "clip", some "L", some "a.webm"⟩ rfl (by decide)⟩

theorem glossifier_accept_blank {recent : List (List Char)} {raw : List Char}
    (h : normalize_line raw = []) :
    glossifier_accept recent raw = (none, recent) := by
  unfold glossifier_accept
  rw [if_pos h]

theorem glossifier_accept_dup {recent : List (List Char)} {raw : List Char}
    (h : normalize_line raw ≠ [])
    (hd : recent.getLast? = some (normalize_line raw)) :
    glossifier_accept recent raw = (none, recent) := by
  unfold glossifier_accept
  rw [if_neg h, if_pos ⟨by rintro rfl; simp at hd, hd⟩]

theorem glossifier_accept_new {recent : List (List Char)} {raw : List Char}
    (h : normalize_line raw ≠ [])
    (hd : recent.getLast? ≠ some (normalize_line raw)) :
    glossifier_accept recent raw =
      (some (normalize_line raw), dequeAppend 8 recent (normalize_line raw)) := by
  unfold glossifier_accept
  rw [if_neg h, if_neg (fun hcon => hd hcon.2)]

/-- C8: each raw Glossifier line is whitespace-collapsed and trimmed, then
skipped (no record, no state change) iff the result is empty or equals the
immediately preceding accepted line; a repeat of a line accepted two or
more lines earlier is NOT skipped — the window is exactly 1, as the run
over [a, b, a] with distinct normalised a, b shows. -/
theorem glossifier_line_window (recent : List (List Char)) (raw : List Char) :
    (normalize_line raw = [] → glossifier_accept recent raw = (none, recent)) ∧
    (normalize_line raw ≠ [] → recent.getLast? = some (normalize_line raw) →
      glossifier_accept recent raw = (none, recent)) ∧
    (normalize_line raw ≠ [] → recent.getLast? ≠ some (normalize_line raw) →
      glossifier_accept recent raw =
        (some (normalize_line raw), dequeAppend 8 recent (normalize_line raw))) ∧
    (∀ a b : List Char, normalize_line a ≠ [] → normalize_line b ≠ [] →
      normalize_line a ≠ normalize_line b →
      (run_glossifier [a, b, a]).1 =
        [normalize_line a, normalize_line b, normalize_line a]) := by
  refine ⟨glossifier_accept_blank,
          fun h hd => glossifier_accept_dup h hd,
          fun h hd => glossifier_accept_new h hd, ?_⟩
  intro a b ha hb hne
  have s1 : glossifier_accept [] a =
      (some (normalize_line a), [normalize_line a]) := by
    rw [glossifier_accept_new ha (by simp)]
    rfl
  have s2 : glossifier_accept [normalize_line a] b =
      (some (normalize_line b), [normalize_line a, normalize_line b]) := by
    rw [glossifier_accept_new hb
      (by simp [List.getLast?_singleton]; exact fun hcon => hne hcon)]
    rfl
  have s3 : glossifier_accept [normalize_line a, normalize_line b] a =
      (some (normalize_line a),
       dequeAppend 8 [normalize_line a, normalize_line b] (normalize_line a)) := by
    apply glossifier_accept_new ha
    simp [List.getLast?_cons_cons, List.getLast?_singleton]
    exact fun hcon => hne hcon.symm
  simp [run_glossifier, s1, s2, s3]

/-- Witness for `glossifier_line_window` at a concrete input. -/
theorem glossifier_line_window_w :
    (normalize_line ['h'] ≠ [] ∧ normalize_line ['i'] ≠ [] ∧
     normalize_line ['h'] ≠ normalize_line ['i']) ∧
    (run_glossifier [['h'], ['i'], ['h']]).1 =
      [normalize_line ['h'], normalize_line ['i'], normalize_line ['h']] :=
  ⟨⟨by decide, by decide, by decide⟩,
   (glossifier_line_window [] ['h']).2.2.2 ['h'] ['i']
     (by decide) (by decide) (by decide)⟩

set_option maxRecDepth 200000 in
/-- C4: before writing, a cleaned segment whose lowercased key occurs among
the last 64 accepted keys is dropped without writing and without touching
the history; otherwise it is written and its key appended to the 64-slot
deque; with 65 distinct segments, the oldest falls out of the window and a
repeat of it is re-emitted while a repeat of the newest is suppressed. -/
theorem emit_dedup_window (recent : List (List Char)) (raw : List Char)
    (hs : clean_text raw ≠ []) :
    ((clean_text raw).map Char.toLower ∈ recent →
      emit recent raw = (none, recent)) ∧
    ((clean_text raw).map Char.toLower ∉ recent →
      emit recent raw =
        (some (clean_text raw),
         dequeAppend 64 recent ((clean_text raw).map Char.toLower))) ∧
    ((emit (emitAll [] segs65).2 [ 'x' ]).1 = some [ 'x' ] ∧
     (emit (emitAll [] segs65).2 (List.replicate 65 'x')).1 = none) := by
  refine ⟨?_, ?_, by decide⟩
  · intro hmem
    unfold emit
    rw [if_neg hs, if_pos hmem]
  · intro hmem
    unfold emit
    rw [if_neg hs, if_neg hmem]

/-- Witness for `emit_dedup_window` at a concrete input. -/
theorem emit_dedup_window_w :
    clean_text ['h', 'i'] ≠ [] ∧
    ((clean_text ['h', 'i']).map Char.toLower ∈ ([] : List (List Char)) →
      emit [] ['h', 'i'] = (none, [])) ∧
    ((clean_text ['h', 'i']).map Char.toLower ∉ ([] : List (List Char)) →
      emit [] ['h', 'i'] =
        (some (clean_text ['h', 'i']),
         dequeAppend 64 [] ((clean_text ['h', 'i']).map Char.toLower))) ∧
    ((emit (emitAll [] segs65).2 [ 'x' ]).1 = some [ 'x' ] ∧
     (emit (emitAll [] segs65).2 (List.replicate 65 'x')).1 = none) :=
  ⟨by decide, emit_dedup_window [] ['h', 'i'] (by decide)⟩

theorem capBuf_length_le (b : List Char) : (capBuf b).length ≤ 16384 := by
  unfold capBuf
  split
  · rw [List.length_drop]
    omega
  · omega

/-- C9: whenever the pending buffer exceeds 16384 characters at the
end-of-cycle check it is cut down to exactly its trailing 8192 characters,
so the buffer a Cleaner cycle leaves behind is never longer than 16384. -/
theorem cleaner_buffer_cap (buf : List Char) (idleElapsedMs idleMs : ℤ) :
    ((process_cycle buf idleElapsedMs idleMs).2).length ≤ 16384 ∧
    ∀ b : List Char, 16384 < b.length →
      capBuf b = b.drop (b.length - 8192) ∧ (capBuf b).length = 8192 := by
  constructor
  · show (capBuf _).length ≤ 16384
    exact capBuf_length_le _
  · intro b hb
    constructor
    · unfold capBuf
      rw [if_pos hb]
    · unfold capBuf
      rw [if_pos hb, List.length_drop]
      omega

/-- Witness for `cleaner_buffer_cap` at a concrete input. -/
theorem cleaner_buffer_cap_w :
    16384 < (List.replicate 16385 'a').length ∧
    (((process_cycle ['a'] 0 0).2).length ≤ 16384 ∧
     (capBuf (List.replicate 16385 'a') =
        (List.replicate 16385 'a').drop ((List.replicate 16385 'a').length - 8192) ∧
      (capBuf (List.replicate 16385 'a')).length = 8192)) :=
  ⟨by rw [List.length_replicate]; norm_num, (cleaner_buffer_cap ['a'] 0 0).1,
   (cleaner_buffer_cap ['a'] 0 0).2 (List.replicate 16385 'a')
     (by rw [List.length_replicate]; norm_num)⟩

theorem splitSegs_of_none {p : Char → Bool} {keep : Bool} :
    ∀ {buf : List Char}, splitAtPred p buf = none →
      splitSegs p keep buf = ([], buf) := by
  intro buf
  induction buf with
  | nil => intro _; rfl
  | cons c cs ih =>
    intro h
    cases hp : p c with
    | true => simp [splitAtPred, hp] at h
    | false =>
      have hcs : splitAtPred p cs = none := by
        simp [splitAtPred, hp, Option.map_eq_none] at h
        exact h
      simp [splitSegs, hp, ih hcs]

theorem splitSegs_of_some {p : Char → Bool} {keep : Bool} :
    ∀ {buf a : List Char} {c : Char} {rest : List Char},
      splitAtPred p buf = some (a, c, rest) →
      splitSegs p keep buf =
        ((a ++ if keep then [c] else []) :: (splitSegs p keep rest).1,
         (splitSegs p keep rest).2) := by
  intro buf
  induction buf with
  | nil => intro a c rest h; simp [splitAtPred] at h
  | cons x xs ih =>
    intro a c rest h
    cases hp : p x with
    | true =>
      rw [splitAtPred, if_pos hp] at h
      obtain ⟨rfl, rfl, rfl⟩ :
          ([] : List Char) = a ∧ x = c ∧ xs = rest := by
        simpa using h
      simp [splitSegs, hp]
    | false =>
      rw [splitAtPred, if_neg (by simp [hp])] at h
      cases hxs : splitAtPred p xs with
      | none => rw [hxs] at h; simp at h
      | some r =>
        rw [hxs] at h
        obtain ⟨a', hr⟩ : ∃ a', r = (a', c, rest) ∧ a = x :: a' := by
          obtain ⟨r1, r2, r3⟩ := r
          simp at h
          exact ⟨r1, by simp [h.2.1, h.2.2], h.1.symm⟩
        obtain ⟨hr1, hr2⟩ := hr
        subst hr1 hr2
        rw [splitSegs, if_neg (by simp [hp])]
        rw [ih hxs]
        simp

theorem splitAtPred_rest_length {p : Char → Bool} :
    ∀ {buf a : List Char} {c : Char} {rest : List Char},
      splitAtPred p buf = some (a, c, rest) → rest.length < buf.length := by
  intro buf
  induction buf with
  | nil => intro a c rest h; simp [splitAtPred] at h
  | cons x xs ih =>
    intro a c rest h
    cases hp : p x with
    | true =>
      rw [splitAtPred, if_pos hp] at h
      obtain ⟨_, _, rfl⟩ :
          ([] : List Char) = a ∧ x = c ∧ xs = rest := by
        simpa using h
      simp
    | false =>
      rw [splitAtPred, if_neg (by simp [hp])] at h
      cases hxs : splitAtPred p xs with
      | none => rw [hxs] at h; simp at h
      | some r =>
        rw [hxs] at h
        obtain ⟨r1, r2, r3⟩ := r
        simp at h
        have := ih hxs
        rw [h.2.2] at this
        simp
        omega

theorem drainNewlinesGo_eq :
    ∀ (fuel : Nat) (buf : List Char), buf.length ≤ fuel →
      drainNewlinesGo fuel buf =
        (((splitSegs (fun c => c = '\n') false buf).1).any nonblank,
         ((splitSegs (fun c => c = '\n') false buf).1).filter nonblank,
         (splitSegs (fun c => c = '\n') false buf).2) := by
  intro fuel
  induction fuel with
  | zero =>
    intro buf hlen
    have : buf = [] := List.eq_nil_of_length_eq_zero (Nat.le_zero.mp hlen)
    subst this
    rfl
  | succ fuel ih =>
    intro buf hlen
    cases h : splitAtPred (fun c => c = '\n') buf with
    | none =>
      rw [drainNewlinesGo, h, splitSegs_of_none h]
      rfl
    | some s =>
      obtain ⟨line, c, rest⟩ := s
      have hrest : rest.length ≤ fuel := by
        have := splitAtPred_rest_length h
        omega
      rw [drainNewlinesGo, h, splitSegs_of_some h]
      simp only []
      rw [ih rest hrest]
      simp [List.any_cons, List.filter_cons]

theorem drainPunctGo_eq :
    ∀ (fuel : Nat) (buf : List Char), buf.length ≤ fuel →
      drainPunctGo fuel buf =
        ((splitSegs isEndChar true buf).1, (splitSegs isEndChar true buf).2) := by
  intro fuel
  induction fuel with
  | zero =>
    intro buf hlen
    have : buf = [] := List.eq_nil_of_length_eq_zero (Nat.le_zero.mp hlen)
    subst this
    rfl
  | succ fuel ih =>
    intro buf hlen
    cases h : splitAtPred isEndChar buf with
    | none =>
      rw [drainPunctGo, h, splitSegs_of_none h]
    | some s =>
      obtain ⟨pre, c, rest⟩ := s
      have hrest : rest.length ≤ fuel := by
        have := splitAtPred_rest_length h
        omega
      rw [drainPunctGo, h, splitSegs_of_some h]
      simp only []
      rw [ih rest hrest]
      simp

theorem drain_newlines_eq (buf : List Char) :
    drain_newlines buf =
      (((splitSegs (fun c => c = '\n') false buf).1).any nonblank,
       ((splitSegs (fun c => c = '\n') false buf).1).filter nonblank,
       (splitSegs (fun c => c = '\n') false buf).2) :=
  drainNewlinesGo_eq buf.length buf le_rfl

theorem drain_punct_eq (buf : List Char) :
    drain_punct buf =
      ((splitSegs isEndChar true buf).1, (splitSegs isEndChar true buf).2) :=
  drainPunctGo_eq buf.length buf le_rfl

theorem any_eq_not_isEmpty_filter {α : Type} (p : α → Bool) (L : List α) :
    L.any p = !(L.filter p).isEmpty := by
  induction L with
  | nil => rfl
  | cons x xs ih =>
    cases hp : p x with
    | true => simp [List.any_cons, List.filter_cons, hp]
    | false => simp [List.any_cons, List.filter_cons, hp, ih]

/-- C2 (amended): one Cleaner cycle, as a pure function of (buffer,
idle-elapsed, config), drains newline-delimited lines first and runs the
punctuation drain only if the newline drain flushed nothing; but the idle
flush of the stripped leftover happens whenever the idle window has
elapsed and the leftover is non-blank, regardless of whether the drains
produced output (the code computes `drained` and never consults it).  (As
stated — idle flush gated on both drains producing nothing, i.e.
`spec_cycle_gated` — the claim is false; see the counterexample.) -/
theorem cycle_priority (buf : List Char) (idleElapsedMs idleMs : ℤ) :
    process_cycle buf idleElapsedMs idleMs = spec_cycle buf idleElapsedMs idleMs := by
  unfold process_cycle spec_cycle
  simp only [drain_newlines_eq, drain_punct_eq, any_eq_not_isEmpty_filter]
  cases hE : ((splitSegs (fun c => c = '\n') false buf).1.filter nonblank).isEmpty with
  | true => simp [hE]
  | false => simp [hE]

/-- C2 counterexample: buffer "a\nb" with the idle window already elapsed.
The newline drain emits "a" (it produced output), yet the idle flush still
emits "b" and empties the buffer; the claimed gated behaviour
(`spec_cycle_gated`) would emit only "a" and keep "b" pending. -/
theorem cycle_priority_cex :
    process_cycle ['a', '\n', 'b'] 0 0 = ([['a'], ['b']], []) ∧
    spec_cycle_gated ['a', '\n', 'b'] 0 0 = ([['a']], ['b']) ∧
    process_cycle ['a', '\n', 'b'] 0 0 ≠ spec_cycle_gated ['a', '\n', 'b'] 0 0 := by
  refine ⟨by decide, by decide, ?_⟩
  intro h
  rw [show process_cycle ['a', '\n', 'b'] 0 0 = ([['a'], ['b']], []) from by decide,
      show spec_cycle_gated ['a', '\n', 'b'] 0 0 = ([['a']], ['b']) from by decide] at h
  simp at h

/-- C3: the no-crash half of the claim fails on the code.  Blank and
JSON-undecodable lines are indeed skipped silently with the label state
unchanged (the caught `JSONDecodeError` branch, the `none` cases below),
and a valid record, an undecodable line, then a valid record yield
exactly the two records' assets.  But a line that decodes to anything
other than a record — `null`, `42`, `"x"`, `[]`, or a dict whose queue is
not iterable — escapes `process_line` as an uncaught
AttributeError/TypeError and kills the Streamer run, so interleaving the
JSON-valid non-record line `null` between the same two records loses the
second record's assets. -/
theorem streamer_nonrecord_crash :
    (∀ last : JVal, process_line_json none last = Except.ok ([], last)) ∧
    process_line_json (some JVal.jnull) JVal.jnull =
      Except.error "AttributeError" ∧
    process_line_json (some (JVal.jnum 42)) JVal.jnull =
      Except.error "AttributeError" ∧
    process_line_json (some (JVal.jstr "x")) JVal.jnull =
      Except.error "AttributeError" ∧
    process_line_json (some (JVal.jarr [])) JVal.jnull =
      Except.error "AttributeError" ∧
    process_line_json (some (JVal.jobj [("queue", JVal.jnum 1)])) JVal.jnull =
      Except.error "TypeError" ∧
    run_streamer_json [some streamRecA, none, some streamRecB] JVal.jnull =
      Except.ok ([JVal.jstr "a.webm", JVal.jstr "b.webm"], JVal.jstr "B") ∧
    run_streamer_json [some streamRecA, some JVal.jnull, some streamRecB]
        JVal.jnull =
      Except.error "AttributeError" :=
  ⟨fun _ => rfl, rfl, rfl, rfl, rfl, rfl, rfl, rfl⟩
